import Mathlib

/-!
Verification of the engine abstraction and event-normalization layer of the
claude-code-pro repository: the canonical event model, the IFlow event parser
with its ToolCallManager, the session run/abort/dispose state machine, and the
task template system.  Definitions are shallow embeddings of the TypeScript
source; JavaScript truthiness on optional string fields is modelled explicitly.
-/

namespace ClaudeCodePro

/-- JavaScript truthiness for an optional string: undefined and the empty
string are falsy, every other string is truthy. -/
def jsTruthyOptStr : Option String → Bool
  | some s => s ≠ ""
  | none => false

/-- JavaScript a-or-b on an optional string with a final string fallback,
modelling expressions of the form a || b where the result must be a string:
returns the string if it is present and non-empty, otherwise the fallback. -/
def jsStrOr : Option String → String → String
  | some s, d => if s = "" then d else s
  | none, d => d

/-- JavaScript a || b where both sides are optional values and the result may
stay absent: the left value wins when present and truthy (non-empty). -/
def jsOrOpt : Option String → Option String → Option String
  | some s, b => if s = "" then b else some s
  | none, b => b

/-- Task kind enumeration from src/ai-runtime/task.ts (AITaskKind). -/
inductive AITaskKind
  | chat
  | refactor
  | analyze
  | generate
deriving DecidableEq, Repr

/-- Task input from src/ai-runtime/task.ts (AITaskInput).  The open-ended
extra record is modelled as an association list of strings. -/
structure AITaskInput where
  prompt : String
  files : Option (List String)
  extra : Option (List (String × String))
deriving DecidableEq, Repr

/-- Task descriptor from src/ai-runtime/task.ts (AITask). -/
structure AITask where
  id : String
  kind : AITaskKind
  input : AITaskInput
  engineId : Option String
deriving DecidableEq, Repr

/-- Canonical event union from the event model (spec section 3; the factory
module event.ts is not under src, its variants are fixed by the parser call
sites and the spec).  The error variant's payload field is named error in the
source objects; it is the message here. -/
inductive AIEvent
  | sessionStart (sessionId : String)
  | userMessage (content : String) (files : Option (List String))
  | assistantMessage (content : String) (isPartial : Bool)
  | toolCallStart (name : String) (args : List (String × String))
  | toolCallEnd (name : String) (result : Option String) (success : Bool)
  | progress (message : String) (percent : Option Nat)
  | error (message : String)
  | sessionEnd (sessionId : String) (reason : String)
deriving DecidableEq, Repr

/-- Tool call status from ToolCallInfo in the event model. -/
inductive ToolCallStatus
  | running
  | completed
  | failed
deriving DecidableEq, Repr

/-- Tool call bookkeeping record (ToolCallInfo).  The args map and the opaque
result are modelled as string data. -/
structure ToolCallInfo where
  id : String
  name : String
  args : List (String × String)
  status : ToolCallStatus
  result : Option String
deriving DecidableEq, Repr

namespace ToolCallManager

/-- State of a ToolCallManager: the underlying insertion-ordered Map of
src/engines/iflow/event-parser.ts, modelled as a list of entries. -/
abbrev State := List ToolCallInfo

/-- JavaScript Map.set keyed by the id field: replaces the entry in place when
the key exists, otherwise appends at the end. -/
def mapSet (m : State) (v : ToolCallInfo) : State :=
  if m.any (fun tc => tc.id = v.id) then
    m.map (fun tc => if tc.id = v.id then v else tc)
  else
    m ++ [v]

/-- ToolCallManager.startToolCall: registers the id with status running. -/
def startToolCall (toolName : String) (toolId : String)
    (input : List (String × String)) (m : State) : State :=
  mapSet m { id := toolId, name := toolName, args := input,
             status := ToolCallStatus.running, result := none }

/-- ToolCallManager.endToolCall: if the id is present, overwrites its status
with completed (success) or failed and stores the output. -/
def endToolCall (toolId : String) (output : Option String) (success : Bool)
    (m : State) : State :=
  m.map (fun tc =>
    if tc.id = toolId then
      { tc with
        status := if success then ToolCallStatus.completed else ToolCallStatus.failed,
        result := output }
    else tc)

/-- ToolCallManager.getToolCall: Map.get on the id. -/
def getToolCall (m : State) (toolId : String) : Option ToolCallInfo :=
  m.find? (fun tc => tc.id = toolId)

/-- ToolCallManager.getToolCalls: the values in insertion order. -/
def getToolCalls (m : State) : List ToolCallInfo := m

/-- ToolCallManager.removeToolCall: Map.delete on the id. -/
def removeToolCall (toolId : String) (m : State) : State :=
  m.filter (fun tc => tc.id ≠ toolId)

/-- ToolCallManager.clear: empties the map. -/
def clear (_m : State) : State := []

end ToolCallManager

/-- One external mutation of a ToolCallManager, closing the operations the
manager exposes to its callers. -/
inductive TCOp
  | start (name : String) (id : String) (args : List (String × String))
  | endCall (id : String) (output : Option String) (success : Bool)
  | remove (id : String)
  | clear
deriving DecidableEq, Repr

/-- Applies one manager operation to a manager state. -/
def applyTCOp (op : TCOp) (m : ToolCallManager.State) : ToolCallManager.State :=
  match op with
  | TCOp.start n i a => ToolCallManager.startToolCall n i a m
  | TCOp.endCall i out succ => ToolCallManager.endToolCall i out succ m
  | TCOp.remove i => ToolCallManager.removeToolCall i m
  | TCOp.clear => ToolCallManager.clear m

/-- Applies a sequence of manager operations from left to right. -/
def applyTCOps (ops : List TCOp) (m : ToolCallManager.State) : ToolCallManager.State :=
  ops.foldl (fun st op => applyTCOp op st) m

/-- Raw IFlow stream event (IFlowStreamEvent and its refinements in
src/engines/iflow/event-parser.ts).  The loosely typed wire object is modelled
by the fields the parser reads, each optional; values are string data and the
percent field is a number. -/
structure IFlowStreamEvent where
  type : String
  sessionId : Option String
  role : Option String
  content : Option String
  text : Option String
  delta : Option String
  name : Option String
  args : Option (List (String × String))
  input : Option (List (String × String))
  result : Option String
  output : Option String
  status : Option String
  message : Option String
  error : Option String
  percent : Option Nat
deriving DecidableEq, Repr

/-- Raw event with every optional field absent, used as a base for building
concrete wire events. -/
def emptyRawEvent : IFlowStreamEvent :=
  { type := "", sessionId := none, role := none, content := none, text := none,
    delta := none, name := none, args := none, input := none, result := none,
    output := none, status := none, message := none, error := none,
    percent := none }

namespace IFlowEventParser

/-- Mutable state of an IFlowEventParser instance: its ToolCallManager and a
counter feeding the tool-call id generator (crypto.randomUUID in the source is
modelled as an arbitrary id-generating function applied to this counter). -/
structure State where
  toolCalls : ToolCallManager.State
  nextIdx : Nat
deriving DecidableEq, Repr

/-- Freshly constructed parser: empty manager, counter at zero. -/
def fresh : State := { toolCalls := [], nextIdx := 0 }

/-- IFlowEventParser.parseSessionEvent: start maps to session_start, end and
complete map to session_end with reason completed; the session id falls back
to the parser's own id on a falsy sessionId field. -/
def parseSessionEvent (sid : String) (e : IFlowStreamEvent) : List AIEvent :=
  if e.type = "start" then
    [AIEvent.sessionStart (jsStrOr e.sessionId sid)]
  else if e.type = "end" ∨ e.type = "complete" then
    [AIEvent.sessionEnd (jsStrOr e.sessionId sid) "completed"]
  else
    []

/-- IFlowEventParser.parseMessageEvent: assistant content becomes a complete
assistant_message, user content a user_message, other roles nothing. -/
def parseMessageEvent (e : IFlowStreamEvent) : List AIEvent :=
  if e.role = some "assistant" then
    [AIEvent.assistantMessage (e.content.getD "") false]
  else if e.role = some "user" then
    [AIEvent.userMessage (e.content.getD "") none]
  else
    []

/-- IFlowEventParser.parseTokenEvent: text falls back to delta falls back to
the empty string (JavaScript or-chaining), emitted as a partial
assistant_message. -/
def parseTokenEvent (e : IFlowStreamEvent) : AIEvent :=
  AIEvent.assistantMessage (jsStrOr e.text (jsStrOr e.delta "")) true

/-- Tool name as the parser computes it: event.name || "unknown". -/
def toolEventName (e : IFlowStreamEvent) : String :=
  jsStrOr e.name "unknown"

/-- Tool args as the parser computes it: event.args || event.input || empty
map; a present map wins even when empty, since objects are always truthy. -/
def toolEventArgs (e : IFlowStreamEvent) : List (String × String) :=
  match e.args with
  | some a => a
  | none => e.input.getD []

/-- IFlowEventParser.parseToolEvent: a falsy or start status registers a fresh
running tool call and emits progress then tool_call_start; status end or error
emit progress then tool_call_end without touching the manager; any other
status produces nothing. -/
def parseToolEvent (idGen : Nat → String) (st : State) (e : IFlowStreamEvent) :
    State × List AIEvent :=
  if jsTruthyOptStr e.status = false ∨ e.status = some "start" then
    ({ toolCalls := ToolCallManager.startToolCall (toolEventName e)
         (idGen st.nextIdx) (toolEventArgs e) st.toolCalls,
       nextIdx := st.nextIdx + 1 },
     [AIEvent.progress ("调用工具: " ++ toolEventName e) none,
      AIEvent.toolCallStart (toolEventName e) (toolEventArgs e)])
  else if e.status = some "end" then
    (st, [AIEvent.progress ("工具完成: " ++ toolEventName e) none,
          AIEvent.toolCallEnd (toolEventName e) (jsOrOpt e.result e.output) true])
  else if e.status = some "error" then
    (st, [AIEvent.progress ("工具失败: " ++ toolEventName e) none,
          AIEvent.toolCallEnd (toolEventName e) (jsOrOpt e.result e.output) false])
  else
    (st, [])

/-- IFlowEventParser.parseProgressEvent. -/
def parseProgressEvent (e : IFlowStreamEvent) : AIEvent :=
  AIEvent.progress (e.message.getD "") e.percent

/-- IFlowEventParser.parseErrorEvent: message from the error field, falling
back to the message field, falling back to the generic unknown-error text. -/
def parseErrorEvent (e : IFlowStreamEvent) : AIEvent :=
  AIEvent.error (jsStrOr e.error (jsStrOr e.message "未知错误"))

/-- IFlowEventParser.parse: dispatch on the raw type field; unknown types are
logged and produce no events. -/
def parse (sid : String) (idGen : Nat → String) (st : State)
    (e : IFlowStreamEvent) : State × List AIEvent :=
  match e.type with
  | "start" => (st, parseSessionEvent sid e)
  | "end" => (st, parseSessionEvent sid e)
  | "complete" => (st, parseSessionEvent sid e)
  | "message" => (st, parseMessageEvent e)
  | "token" => (st, [parseTokenEvent e])
  | "delta" => (st, [parseTokenEvent e])
  | "tool" => parseToolEvent idGen st e
  | "tool_call" => parseToolEvent idGen st e
  | "progress" => (st, [parseProgressEvent e])
  | "error" => (st, [parseErrorEvent e])
  | _ => (st, [])

/-- Feeding a sequence of raw events through one parser instance, concatenating
the canonical events produced by each parse call. -/
def parseAll (sid : String) (idGen : Nat → String) :
    State → List IFlowStreamEvent → State × List AIEvent
  | st, [] => (st, [])
  | st, e :: rest =>
    let p := parse sid idGen st e
    let q := parseAll sid idGen p.1 rest
    (q.1, p.2 ++ q.2)

/-- IFlowEventParser.getCurrentToolCalls. -/
def getCurrentToolCalls (st : State) : List ToolCallInfo :=
  ToolCallManager.getToolCalls st.toolCalls

/-- IFlowEventParser.reset: clears the manager. -/
def reset (st : State) : State :=
  { st with toolCalls := ToolCallManager.clear st.toolCalls }

end IFlowEventParser

/-- Session status from the session module (AISessionStatus). -/
inductive AISessionStatus
  | idle
  | running
  | disposed
deriving DecidableEq, Repr

/-- The completion predicate of createDefaultCompletionChecker in
src/ai-runtime/base/base-session.ts: session_end and error events end the
session; BaseSession.run breaks on the same two types. -/
def defaultCompletionCheck (e : AIEvent) : Bool :=
  match e with
  | AIEvent.sessionEnd _ _ => true
  | AIEvent.error _ => true
  | _ => false

namespace BaseSession

/-- The events BaseSession.run yields before delegating to executeTask: a
session_start, then, when the prompt is truthy (non-empty), a user_message
echoing the prompt and files. -/
def headerEvents (sid : String) (task : AITask) : List AIEvent :=
  AIEvent.sessionStart sid ::
    (if task.input.prompt ≠ "" then
      [AIEvent.userMessage task.input.prompt task.input.files]
    else [])

/-- The forwarding loop of BaseSession.run over the events delivered by the
executeTask stream: each event is yielded and iteration stops right after a
session_end or error event.  The second argument models an exception raised
while producing the stream after the delivered events (including executeTask
itself rejecting, with the empty list delivered): the surrounding catch block
turns it into one synthesized error event, unless iteration already stopped at
a terminal event. -/
def forwardEvents : List AIEvent → Option String → List AIEvent
  | [], none => []
  | [], some msg => [AIEvent.error msg]
  | e :: rest, exc =>
    e :: (if defaultCompletionCheck e then [] else forwardEvents rest exc)

/-- The prefix of a delivered stream up to and including its first terminal
event; everything buffered behind that event is dropped by run. -/
def takeUntilTerminal : List AIEvent → List AIEvent
  | [] => []
  | e :: rest => e :: (if defaultCompletionCheck e then [] else takeUntilTerminal rest)

/-- BaseSession.run as the sequence of events the consumer observes: a
disposed session throws; otherwise the header events precede the forwarded
executeTask stream, with uncaught failures converted to one error event. -/
def run (isDisposed : Bool) (sid : String) (task : AITask)
    (delivered : List AIEvent) (exc : Option String) :
    Except String (List AIEvent) :=
  if isDisposed then
    Except.error "[BaseSession] Session 已被释放，无法执行任务"
  else
    Except.ok (headerEvents sid task ++ forwardEvents delivered exc)

/-- BaseSession.abort: delegates to the engine-specific abortTask hook on the
subclass state and then unconditionally sets the status to idle, whatever the
supplied task id was. -/
def abort {σ : Type} (abortTask : Option String → σ → σ) (taskId : Option String)
    (s : AISessionStatus × σ) : AISessionStatus × σ :=
  (AISessionStatus.idle, abortTask taskId s.2)

/-- The createEventIterable pull-sequence over the full list of events the
producer pushed (modelled with production completed before consumption): once
the completion condition has fired the iterator drains every buffered event;
when no pushed event satisfies the condition the consumer loop never
terminates, so the iteration yields no completed sequence. -/
def createEventIterableYields (pushed : List AIEvent) : Option (List AIEvent) :=
  if pushed.any defaultCompletionCheck then some pushed else none

end BaseSession

/-- Observable outcome of consuming the iterator returned by IFlowSession.run
in src/engines/iflow (the unnamed session source): the events it yielded and
the exception it threw, if any; none models an iteration that never finishes.
A disposed session throws immediately.  When the process spawn fails, the
catch handler records the error as completionError and wakes the consumer,
whose loop exits at once and throws completionError before draining anything,
having yielded no events.  When the spawn succeeds, the stub producer never
pushes events and never completes, so the consumer blocks forever. -/
structure IFlowRunOutcome where
  yielded : List AIEvent
  thrown : Option String
deriving DecidableEq, Repr

namespace IFlowSession

/-- IFlowSession.run, reduced to the outcome its consumer observes (see
IFlowRunOutcome).  Note that the run path pushes neither a session_start nor a
user_message event into its queue. -/
def runOutcome (isDisposed : Bool) (spawnError : Option String) :
    Option IFlowRunOutcome :=
  if isDisposed then
    some { yielded := [], thrown := some "[IFlowSession] Session 已被释放，无法执行任务" }
  else
    match spawnError with
    | some e => some { yielded := [], thrown := some e }
    | none => none

/-- Mutable state of an IFlowSession, with instrumentation counters for the
observable side effects: killCount counts process.kill() invocations and
warnCount counts logged warnings. -/
structure State where
  status : AISessionStatus
  isDisposed : Bool
  hasProcess : Bool
  killCount : Nat
  currentTaskId : Option String
  parserToolCalls : ToolCallManager.State
  warnCount : Nat
deriving DecidableEq, Repr

/-- IFlowSession.abort: a truthy taskId that differs from the current task id
only logs a warning; otherwise the process (if any) is killed and cleared, the
current task id is reset and the status set to idle. -/
def abort (taskId : Option String) (s : State) : State :=
  if jsTruthyOptStr taskId = true ∧ s.currentTaskId ≠ taskId then
    { s with warnCount := s.warnCount + 1 }
  else
    let s1 := if s.hasProcess then
        { s with killCount := s.killCount + 1, hasProcess := false }
      else s
    { s1 with currentTaskId := none, status := AISessionStatus.idle }

/-- IFlowSession.dispose: idempotent; kills any process, resets the parser's
tool calls, clears the current task id and sets status to disposed. -/
def dispose (s : State) : State :=
  if s.isDisposed then s
  else
    let s1 := { s with isDisposed := true, status := AISessionStatus.disposed }
    let s2 := if s1.hasProcess then
        { s1 with killCount := s1.killCount + 1, hasProcess := false }
      else s1
    { s2 with
      parserToolCalls := ToolCallManager.clear s2.parserToolCalls,
      currentTaskId := none }

/-- Entry of IFlowSession.run on the session state: throws when disposed,
otherwise records the running status and the current task id. -/
def runStart (task : AITask) (s : State) : Except String State :=
  if s.isDisposed then
    Except.error "[IFlowSession] Session 已被释放，无法执行任务"
  else
    Except.ok { s with status := AISessionStatus.running, currentTaskId := some task.id }

end IFlowSession

/-- Session-level operations a caller can perform after construction. -/
inductive SessionOp
  | abort (taskId : Option String)
  | dispose
  | runAttempt (task : AITask)
deriving DecidableEq, Repr

/-- Applies one session operation to an IFlowSession state; a rejected run
leaves the state unchanged. -/
def applySessionOp (op : SessionOp) (s : IFlowSession.State) : IFlowSession.State :=
  match op with
  | SessionOp.abort tid => IFlowSession.abort tid s
  | SessionOp.dispose => IFlowSession.dispose s
  | SessionOp.runAttempt t =>
    match IFlowSession.runStart t s with
    | Except.ok s1 => s1
    | Except.error _ => s

/-- Applies a sequence of session operations from left to right. -/
def applySessionOps (ops : List SessionOp) (s : IFlowSession.State) : IFlowSession.State :=
  ops.foldl (fun st op => applySessionOp op st) s

/-- Template variable declaration from src/ai-runtime/task-template.ts
(TemplateVariable); the optional required flag is falsy when absent, so it is
modelled as a plain boolean. -/
structure TemplateVariable where
  name : String
  description : String
  dflt : Option String
  required : Bool
deriving DecidableEq, Repr

/-- Template definition (AITaskTemplate); the optional variables list is
modelled as a list that is empty when absent, and the optional requireFiles
flag as a plain boolean. -/
structure AITaskTemplate where
  id : String
  name : String
  description : String
  kind : AITaskKind
  promptTemplate : String
  vars : List TemplateVariable
  requireFiles : Bool
deriving DecidableEq, Repr

/-- Rendering context (TemplateContext): variable values as an insertion
ordered record, plus the optional file list and extra record. -/
structure TemplateContext where
  vars : List (String × String)
  files : Option (List String)
  extra : Option (List (String × String))
deriving DecidableEq, Repr

/-- TemplateRenderError: the message and the optional list of missing
variable names it carries. -/
structure TemplateRenderError where
  message : String
  missingVariables : Option (List String)
deriving DecidableEq, Repr

/-- Record field access context.variables[name] on the modelled record. -/
def lookupVar (vars : List (String × String)) (n : String) : Option String :=
  (vars.find? (fun kv => kv.1 = n)).map (fun kv => kv.2)

/-- Left brace character, spelled by code point. -/
def lbrace : Char := Char.ofNat 123

/-- Right brace character, spelled by code point. -/
def rbrace : Char := Char.ofNat 125

/-- Matches the tail of the placeholder pattern after the two opening braces:
optional whitespace, the key, optional whitespace, two closing braces;
returns the remaining characters on success. -/
def matchKeyAfterBraces (key : List Char) (cs : List Char) : Option (List Char) :=
  let cs1 := cs.dropWhile Char.isWhitespace
  if key.isPrefixOf cs1 then
    let cs2 := (cs1.drop key.length).dropWhile Char.isWhitespace
    match cs2 with
    | d1 :: d2 :: rest => if d1 = rbrace ∧ d2 = rbrace then some rest else none
    | _ => none
  else none

/-- Matches one whitespace-tolerant placeholder for the key at the head of the
character stream, mirroring the regex built in renderTemplate. -/
def matchPlaceholder (key : List Char) (cs : List Char) : Option (List Char) :=
  match cs with
  | c1 :: c2 :: rest =>
    if c1 = lbrace ∧ c2 = lbrace then matchKeyAfterBraces key rest else none
  | _ => none

/-- Fuelled scan replacing every placeholder occurrence of the key by the
value; the fuel starts at the character count, which bounds the scan since
each match consumes at least the four brace characters. -/
def replaceAllAux (fuel : Nat) (key val : List Char) (cs : List Char) : List Char :=
  match fuel, cs with
  | 0, rest => rest
  | Nat.succ _, [] => []
  | Nat.succ f, c :: rest =>
    match matchPlaceholder key (c :: rest) with
    | some remainder => val ++ replaceAllAux f key val remainder
    | none => c :: replaceAllAux f key val rest

/-- The renderTemplate function: replaces, for each context variable in
insertion order, every whitespace-tolerant placeholder of its name by its
value; unresolved placeholders stay verbatim.  Regex metacharacters in keys
and dollar patterns in replacement values are not modelled. -/
def renderTemplate (template : String) (vars : List (String × String)) : String :=
  vars.foldl
    (fun acc kv =>
      let cs := acc.toList
      String.mk (replaceAllAux cs.length kv.1.toList kv.2.toList cs))
    template

/-- Validation result shape returned by validateVariables. -/
structure ValidationResult where
  valid : Bool
  missing : Option (List String)
deriving DecidableEq, Repr

/-- The collection loop of validateVariables: a declared variable is missing
when its required flag is truthy and the context value is falsy (absent or
empty). -/
def collectMissing : List TemplateVariable → List (String × String) → List String
  | [], _ => []
  | v :: rest, ctxVars =>
    if v.required = true ∧ jsTruthyOptStr (lookupVar ctxVars v.name) = false then
      v.name :: collectMissing rest ctxVars
    else
      collectMissing rest ctxVars

/-- The validateVariables function of src/ai-runtime/task-template.ts; the
missing list of the source's local binding is collectMissing. -/
def validateVariables (t : AITaskTemplate) (c : TemplateContext) : ValidationResult :=
  if t.vars.isEmpty then
    { valid := true, missing := none }
  else
    { valid := (collectMissing t.vars c.vars).isEmpty,
      missing := if (collectMissing t.vars c.vars).isEmpty then none
                 else some (collectMissing t.vars c.vars) }

namespace TaskTemplate

/-- TaskTemplate.render: validates required variables (throwing an error that
lists every missing name), then the file requirement, and only then builds the
AITask.  The taskId argument models the caller-supplied id or the generated
uuid. -/
def render (t : AITaskTemplate) (c : TemplateContext) (taskId : String) :
    Except TemplateRenderError AITask :=
  if (validateVariables t c).valid = false then
    Except.error
      { message := "Missing required variables: " ++
          String.intercalate ", " ((validateVariables t c).missing.getD []),
        missingVariables := (validateVariables t c).missing }
  else if t.requireFiles = true ∧ (c.files.getD []).isEmpty = true then
    Except.error
      { message := "This template requires at least one file",
        missingVariables := none }
  else
    Except.ok
      { id := taskId,
        kind := t.kind,
        input := { prompt := renderTemplate t.promptTemplate c.vars,
                   files := c.files,
                   extra := c.extra },
        engineId := none }

end TaskTemplate

/-- Recognizer for session_start events. -/
def isSessionStartEvent (e : AIEvent) : Bool :=
  match e with
  | AIEvent.sessionStart _ => true
  | _ => false

/-- Recognizer for user_message events. -/
def isUserMessageEvent (e : AIEvent) : Bool :=
  match e with
  | AIEvent.userMessage _ _ => true
  | _ => false

/-- Recognizer for error events. -/
def isErrorEvent (e : AIEvent) : Bool :=
  match e with
  | AIEvent.error _ => true
  | _ => false

section ManagerLemmas

open ToolCallManager

theorem find?_replace_self (m : List ToolCallInfo) (v : ToolCallInfo)
    (h : m.any (fun tc => tc.id = v.id) = true) :
    (m.map (fun tc => if tc.id = v.id then v else tc)).find?
      (fun tc => tc.id = v.id) = some v := by
  induction m with
  | nil => simp at h
  | cons hd tl ih =>
    simp only [List.any_cons, Bool.or_eq_true, decide_eq_true_eq] at h
    rw [List.map_cons]
    by_cases hid : hd.id = v.id
    · rw [if_pos hid]
      exact List.find?_cons_of_pos _ (by simp)
    · rw [if_neg hid]
      have htl : tl.any (fun tc => tc.id = v.id) = true := by
        rcases h with h | h
        · exact absurd h hid
        · exact h
      rw [List.find?_cons_of_neg _ (by simpa using hid)]
      exact ih htl

theorem find?_append_single (m : List ToolCallInfo) (v : ToolCallInfo)
    (p : ToolCallInfo → Bool) (hv : p v = true) (h : m.find? p = none) :
    (m ++ [v]).find? p = some v := by
  induction m with
  | nil => simpa using List.find?_cons_of_pos ([] : List ToolCallInfo) hv
  | cons hd tl ih =>
    by_cases hp : p hd = true
    · rw [List.find?_cons_of_pos _ hp] at h
      exact absurd h (by simp)
    · rw [List.find?_cons_of_neg _ (by simpa using hp)] at h
      rw [List.cons_append, List.find?_cons_of_neg _ (by simpa using hp)]
      exact ih h

theorem find?_append_false (m : List ToolCallInfo) (v : ToolCallInfo)
    (p : ToolCallInfo → Bool) (hv : p v = false) :
    (m ++ [v]).find? p = m.find? p := by
  induction m with
  | nil =>
    rw [List.nil_append, List.find?_cons_of_neg _ (by simp [hv]), List.find?_nil]
  | cons hd tl ih =>
    by_cases hp : p hd = true
    · rw [List.cons_append, List.find?_cons_of_pos _ hp, List.find?_cons_of_pos _ hp]
    · rw [List.cons_append, List.find?_cons_of_neg _ (by simpa using hp),
        List.find?_cons_of_neg _ (by simpa using hp), ih]

theorem find?_map_agree_keep (f : ToolCallInfo → ToolCallInfo)
    (p : ToolCallInfo → Bool) (m : List ToolCallInfo)
    (hagree : ∀ tc, p (f tc) = p tc) (hkeep : ∀ tc, p tc = true → f tc = tc) :
    (m.map f).find? p = m.find? p := by
  induction m with
  | nil => rfl
  | cons hd tl ih =>
    rw [List.map_cons]
    by_cases hp : p hd = true
    · rw [List.find?_cons_of_pos _ (by rw [hagree]; exact hp),
        List.find?_cons_of_pos _ hp, hkeep hd hp]
    · rw [List.find?_cons_of_neg _ (by rw [hagree]; simpa using hp),
        List.find?_cons_of_neg _ (by simpa using hp), ih]

theorem find?_map_agree (f : ToolCallInfo → ToolCallInfo)
    (p : ToolCallInfo → Bool) (m : List ToolCallInfo)
    (hagree : ∀ tc, p (f tc) = p tc) :
    (m.map f).find? p = (m.find? p).map f := by
  induction m with
  | nil => rfl
  | cons hd tl ih =>
    rw [List.map_cons]
    by_cases hp : p hd = true
    · rw [List.find?_cons_of_pos _ (by rw [hagree]; exact hp),
        List.find?_cons_of_pos _ hp]
      rfl
    · rw [List.find?_cons_of_neg _ (by rw [hagree]; simpa using hp),
        List.find?_cons_of_neg _ (by simpa using hp), ih]

theorem find?_filter_keep (p q : ToolCallInfo → Bool) (m : List ToolCallInfo)
    (hkeep : ∀ tc, p tc = true → q tc = true) :
    (m.filter q).find? p = m.find? p := by
  induction m with
  | nil => rfl
  | cons hd tl ih =>
    by_cases hq : q hd = true
    · rw [List.filter_cons_of_pos hq]
      by_cases hp : p hd = true
      · rw [List.find?_cons_of_pos _ hp, List.find?_cons_of_pos _ hp]
      · rw [List.find?_cons_of_neg _ (by simpa using hp),
          List.find?_cons_of_neg _ (by simpa using hp), ih]
    · have hp : p hd = false := by
        by_contra hc
        exact hq (hkeep hd (by simpa using hc))
      rw [List.filter_cons_of_neg (by simpa using hq),
        List.find?_cons_of_neg _ (by simp [hp]), ih]

theorem getToolCall_mapSet_self (m : List ToolCallInfo) (v : ToolCallInfo) :
    getToolCall (mapSet m v) v.id = some v := by
  unfold mapSet getToolCall
  by_cases h : m.any (fun tc => tc.id = v.id) = true
  · rw [if_pos h]
    exact find?_replace_self m v h
  · rw [if_neg h]
    refine find?_append_single m v _ (by simp) ?_
    rw [List.find?_eq_none]
    intro a ha hc
    exact h (List.any_eq_true.mpr ⟨a, ha, hc⟩)

theorem getToolCall_startToolCall_self (n i : String)
    (a : List (String × String)) (m : List ToolCallInfo) :
    getToolCall (startToolCall n i a m) i =
      some { id := i, name := n, args := a,
             status := ToolCallStatus.running, result := none } :=
  getToolCall_mapSet_self m _

theorem getToolCall_mapSet_other (m : List ToolCallInfo) (v : ToolCallInfo)
    (k : String) (hk : v.id ≠ k) :
    getToolCall (mapSet m v) k = getToolCall m k := by
  unfold mapSet getToolCall
  by_cases h : m.any (fun tc => tc.id = v.id) = true
  · rw [if_pos h]
    refine find?_map_agree_keep _ _ m ?_ ?_
    · intro tc
      by_cases hid : tc.id = v.id
      · rw [if_pos hid]
        simp [hid, hk]
      · rw [if_neg hid]
    · intro tc hp
      have htk : tc.id = k := by simpa using hp
      rw [if_neg (by rw [htk]; exact fun hc => hk hc.symm)]
  · rw [if_neg h]
    exact find?_append_false m v _ (by simp [hk])

theorem getToolCall_startToolCall_other (n i : String)
    (a : List (String × String)) (m : List ToolCallInfo)
    (k : String) (hk : i ≠ k) :
    getToolCall (startToolCall n i a m) k = getToolCall m k :=
  getToolCall_mapSet_other m _ k hk

theorem getToolCall_endToolCall_self (i : String) (out : Option String)
    (succ : Bool) (m : List ToolCallInfo) :
    getToolCall (endToolCall i out succ m) i =
      (getToolCall m i).map (fun tc =>
        { tc with
          status := if succ then ToolCallStatus.completed else ToolCallStatus.failed,
          result := out }) := by
  unfold endToolCall getToolCall
  rw [find?_map_agree _ _ m (by
    intro tc
    by_cases hid : tc.id = i
    · rw [if_pos hid]
    · rw [if_neg hid])]
  cases hfind : m.find? (fun tc => decide (tc.id = i)) with
  | none => rfl
  | some tc =>
    have hp : tc.id = i := by simpa using List.find?_some hfind
    simp only [Option.map]
    rw [if_pos hp]

theorem getToolCall_endToolCall_other (i : String) (out : Option String)
    (succ : Bool) (m : List ToolCallInfo) (k : String) (hk : i ≠ k) :
    getToolCall (endToolCall i out succ m) k = getToolCall m k := by
  unfold endToolCall getToolCall
  refine find?_map_agree_keep _ _ m ?_ ?_
  · intro tc
    by_cases hid : tc.id = i
    · rw [if_pos hid]
    · rw [if_neg hid]
  · intro tc hp
    have htk : tc.id = k := by simpa using hp
    rw [if_neg (by rw [htk]; exact fun hc => hk hc.symm)]

theorem getToolCall_removeToolCall (i : String) (m : List ToolCallInfo)
    (k : String) :
    getToolCall (removeToolCall i m) k =
      (if i = k then none else getToolCall m k) := by
  unfold removeToolCall getToolCall
  by_cases hik : i = k
  · subst hik
    rw [if_pos rfl, List.find?_eq_none]
    intro a ha
    have hq : a.id ≠ i := by simpa using List.of_mem_filter ha
    simp [hq]
  · rw [if_neg hik]
    refine find?_filter_keep _ _ m ?_
    intro tc hp
    have htk : tc.id = k := by simpa using hp
    simp only [htk, ne_eq, decide_eq_true_eq]
    exact fun hc => hik hc.symm

end ManagerLemmas

section ParserLemmas

theorem parseToolEvent_snd_ext (g₁ g₂ : Nat → String)
    (st₁ st₂ : IFlowEventParser.State) (e : IFlowStreamEvent) :
    (IFlowEventParser.parseToolEvent g₁ st₁ e).2 =
      (IFlowEventParser.parseToolEvent g₂ st₂ e).2 := by
  unfold IFlowEventParser.parseToolEvent
  split_ifs <;> rfl

theorem parse_snd_ext (sid : String) (g₁ g₂ : Nat → String)
    (st₁ st₂ : IFlowEventParser.State) (e : IFlowStreamEvent) :
    (IFlowEventParser.parse sid g₁ st₁ e).2 =
      (IFlowEventParser.parse sid g₂ st₂ e).2 := by
  unfold IFlowEventParser.parse
  split <;> first
    | rfl
    | exact parseToolEvent_snd_ext g₁ g₂ st₁ st₂ e

theorem parseAll_snd_ext (sid : String) (g₁ g₂ : Nat → String) :
    ∀ (evs : List IFlowStreamEvent) (st₁ st₂ : IFlowEventParser.State),
    (IFlowEventParser.parseAll sid g₁ st₁ evs).2 =
      (IFlowEventParser.parseAll sid g₂ st₂ evs).2 := by
  intro evs
  induction evs with
  | nil => intro st₁ st₂; rfl
  | cons e rest ih =>
    intro st₁ st₂
    show (IFlowEventParser.parse sid g₁ st₁ e).2 ++
        (IFlowEventParser.parseAll sid g₁ (IFlowEventParser.parse sid g₁ st₁ e).1 rest).2 =
      (IFlowEventParser.parse sid g₂ st₂ e).2 ++
        (IFlowEventParser.parseAll sid g₂ (IFlowEventParser.parse sid g₂ st₂ e).1 rest).2
    rw [parse_snd_ext sid g₁ g₂ st₁ st₂ e,
      ih (IFlowEventParser.parse sid g₁ st₁ e).1 (IFlowEventParser.parse sid g₂ st₂ e).1]

theorem startToolCall_all_running (n i : String) (a : List (String × String))
    (m : ToolCallManager.State)
    (h : ∀ tc ∈ m, tc.status = ToolCallStatus.running) :
    ∀ tc ∈ ToolCallManager.startToolCall n i a m,
      tc.status = ToolCallStatus.running := by
  intro tc htc
  unfold ToolCallManager.startToolCall ToolCallManager.mapSet at htc
  split at htc
  · rcases List.mem_map.mp htc with ⟨tc₀, h₀, rfl⟩
    split
    · rfl
    · exact h tc₀ h₀
  · rcases List.mem_append.mp htc with h₀ | h₀
    · exact h tc h₀
    · rw [List.mem_singleton.mp h₀]

theorem parseToolEvent_all_running (g : Nat → String)
    (st : IFlowEventParser.State) (e : IFlowStreamEvent)
    (h : ∀ tc ∈ st.toolCalls, tc.status = ToolCallStatus.running) :
    ∀ tc ∈ (IFlowEventParser.parseToolEvent g st e).1.toolCalls,
      tc.status = ToolCallStatus.running := by
  unfold IFlowEventParser.parseToolEvent
  split_ifs
  · exact startToolCall_all_running _ _ _ _ h
  · exact h
  · exact h
  · exact h

theorem parse_all_running (sid : String) (g : Nat → String)
    (st : IFlowEventParser.State) (e : IFlowStreamEvent)
    (h : ∀ tc ∈ st.toolCalls, tc.status = ToolCallStatus.running) :
    ∀ tc ∈ (IFlowEventParser.parse sid g st e).1.toolCalls,
      tc.status = ToolCallStatus.running := by
  unfold IFlowEventParser.parse
  split <;> first
    | exact h
    | exact parseToolEvent_all_running g st e h

theorem parseAll_all_running (sid : String) (g : Nat → String) :
    ∀ (evs : List IFlowStreamEvent) (st : IFlowEventParser.State),
    (∀ tc ∈ st.toolCalls, tc.status = ToolCallStatus.running) →
    ∀ tc ∈ (IFlowEventParser.parseAll sid g st evs).1.toolCalls,
      tc.status = ToolCallStatus.running := by
  intro evs
  induction evs with
  | nil => intro st h; exact h
  | cons e rest ih =>
    intro st h
    show ∀ tc ∈ (IFlowEventParser.parseAll sid g
        (IFlowEventParser.parse sid g st e).1 rest).1.toolCalls,
      tc.status = ToolCallStatus.running
    exact ih _ (parse_all_running sid g st e h)

end ParserLemmas

/-- Claim C9 (confirmed).  For every fixed sequence of raw events, feeding the
sequence to two fresh parser instances with the same session id yields
identical concatenated canonical event sequences, whatever ids the tool-call
id generators produce: the emitted events never depend on the generated ids or
on the manager state, so the outputs agree even without quotienting by ids. -/
theorem parse_deterministic_modulo_ids (sid : String) (g₁ g₂ : Nat → String)
    (evs : List IFlowStreamEvent) :
    (IFlowEventParser.parseAll sid g₁ IFlowEventParser.fresh evs).2 =
      (IFlowEventParser.parseAll sid g₂ IFlowEventParser.fresh evs).2 :=
  parseAll_snd_ext sid g₁ g₂ evs _ _

/-- Claim C10 (confirmed).  The parse path never marks a tool call terminal:
after any sequence of parse calls on a fresh parser, every entry of
getCurrentToolCalls still has status running, since status end and error raw
tool events emit a tool_call_end event without calling endToolCall. -/
theorem parse_never_terminates_toolcalls (sid : String) (g : Nat → String)
    (evs : List IFlowStreamEvent) :
    ∀ tc ∈ IFlowEventParser.getCurrentToolCalls
        (IFlowEventParser.parseAll sid g IFlowEventParser.fresh evs).1,
      tc.status = ToolCallStatus.running :=
  parseAll_all_running sid g evs IFlowEventParser.fresh
    (fun tc htc => absurd htc (List.not_mem_nil tc))

/-- Witness for C10: a concrete raw tool-start event leaves a running entry. -/
theorem parse_never_terminates_toolcalls_witness :
    ({ id := "tc-0", name := "search", args := [("q", "x")],
       status := ToolCallStatus.running, result := none } : ToolCallInfo).status
      = ToolCallStatus.running :=
  parse_never_terminates_toolcalls "sid" (fun n => "tc-" ++ toString n)
    [{ emptyRawEvent with
       type := "tool", name := some "search",
       args := some [("q", "x")], status := some "start" }]
    { id := "tc-0", name := "search", args := [("q", "x")],
      status := ToolCallStatus.running, result := none }
    (by decide)

/-- Claim C8 (corrected), amended statement.  A raw tool or tool_call event
with a falsy status or status start makes parse return exactly two events in
order, a progress event and then a tool_call_start event carrying the tool
name as the parser computes it (the name field with absent or empty names
replaced by the string unknown) and the args (args field, else input field,
else empty), and afterwards the manager holds a running entry under the
generated id. -/
theorem parse_tool_start_amended (sid : String) (g : Nat → String)
    (st : IFlowEventParser.State) (e : IFlowStreamEvent)
    (hty : e.type = "tool" ∨ e.type = "tool_call")
    (hst : e.status = none ∨ e.status = some "" ∨ e.status = some "start") :
    (IFlowEventParser.parse sid g st e).2 =
      [AIEvent.progress ("调用工具: " ++ IFlowEventParser.toolEventName e) none,
       AIEvent.toolCallStart (IFlowEventParser.toolEventName e)
         (IFlowEventParser.toolEventArgs e)] ∧
    ToolCallManager.getToolCall
        (IFlowEventParser.parse sid g st e).1.toolCalls (g st.nextIdx) =
      some { id := g st.nextIdx, name := IFlowEventParser.toolEventName e,
             args := IFlowEventParser.toolEventArgs e,
             status := ToolCallStatus.running, result := none } := by
  have hcond : jsTruthyOptStr e.status = false ∨ e.status = some "start" := by
    rcases hst with h | h | h
    · left; rw [h]; rfl
    · left; rw [h]; rfl
    · right; exact h
  have hparse : IFlowEventParser.parse sid g st e =
      IFlowEventParser.parseToolEvent g st e := by
    rcases hty with h | h <;> (unfold IFlowEventParser.parse; rw [h]) <;> rfl
  rw [hparse]
  unfold IFlowEventParser.parseToolEvent
  rw [if_pos hcond]
  exact ⟨rfl, getToolCall_startToolCall_self _ _ _ _⟩

/-- Witness for the amended C8 on a concrete tool-start raw event. -/
theorem parse_tool_start_amended_witness :
    (IFlowEventParser.parse "sid" (fun n => "tc-" ++ toString n)
        IFlowEventParser.fresh
        { emptyRawEvent with
          type := "tool", name := some "search",
          args := some [("q", "x")], status := some "start" }).2 =
      [AIEvent.progress "调用工具: search" none,
       AIEvent.toolCallStart "search" [("q", "x")]] ∧
    ToolCallManager.getToolCall
        (IFlowEventParser.parse "sid" (fun n => "tc-" ++ toString n)
          IFlowEventParser.fresh
          { emptyRawEvent with
            type := "tool", name := some "search",
            args := some [("q", "x")], status := some "start" }).1.toolCalls "tc-0" =
      some { id := "tc-0", name := "search", args := [("q", "x")],
             status := ToolCallStatus.running, result := none } :=
  parse_tool_start_amended "sid" (fun n => "tc-" ++ toString n)
    IFlowEventParser.fresh
    { emptyRawEvent with
      type := "tool", name := some "search",
      args := some [("q", "x")], status := some "start" }
    (Or.inl rfl) (Or.inr (Or.inr rfl))

/-- Counterexample to C8 as stated: for the raw event with type tool, an empty
name and status start, parse emits a tool_call_start whose name is the string
unknown, not the tool's name (the empty string), because the source computes
event.name or-else unknown and the empty string is falsy in JavaScript. -/
theorem parse_tool_start_empty_name_cex :
    (IFlowEventParser.parse "sid" (fun n => "tc-" ++ toString n)
        IFlowEventParser.fresh
        { emptyRawEvent with
          type := "tool", name := some "",
          args := some [("q", "x")], status := some "start" }).2 =
      [AIEvent.progress "调用工具: unknown" none,
       AIEvent.toolCallStart "unknown" [("q", "x")]] ∧
    ("unknown" : String) ≠ "" := by
  exact ⟨rfl, by decide⟩

/-- Claim C4 (corrected), amended statement.  A manager entry's status changes
only through startToolCall on its id (which resets it to running, whatever it
was) or endToolCall on its id (which sets completed on success and failed on
failure, whatever the previous status was); operations on other ids, removals
and clears never alter a surviving entry's status.  In particular an entry
enters completed or failed only via endToolCall, but a terminal status is not
sticky: a later endToolCall can flip it and a later startToolCall can return
it to running. -/
theorem toolcall_status_transitions_amended
    (m : ToolCallManager.State) (op : TCOp) (k : String)
    (tc tc' : ToolCallInfo)
    (hbefore : ToolCallManager.getToolCall m k = some tc)
    (hafter : ToolCallManager.getToolCall (applyTCOp op m) k = some tc')
    (hchange : tc'.status ≠ tc.status) :
    (∃ n a, op = TCOp.start n k a ∧ tc'.status = ToolCallStatus.running) ∨
    (∃ out, op = TCOp.endCall k out true ∧
      tc'.status = ToolCallStatus.completed ∧
      tc.status ≠ ToolCallStatus.completed) ∨
    (∃ out, op = TCOp.endCall k out false ∧
      tc'.status = ToolCallStatus.failed ∧
      tc.status ≠ ToolCallStatus.failed) := by
  cases op with
  | start n i a =>
    by_cases hik : i = k
    · subst hik
      rw [show applyTCOp (TCOp.start n i a) m =
            ToolCallManager.startToolCall n i a m from rfl,
          getToolCall_startToolCall_self n i a m] at hafter
      have htc' := Option.some.inj hafter
      left
      exact ⟨n, a, rfl, by rw [← htc']⟩
    · rw [show applyTCOp (TCOp.start n i a) m =
            ToolCallManager.startToolCall n i a m from rfl,
          getToolCall_startToolCall_other n i a m k hik, hbefore] at hafter
      exact absurd (congrArg ToolCallInfo.status (Option.some.inj hafter)).symm hchange
  | endCall i out succ =>
    by_cases hik : i = k
    · subst hik
      rw [show applyTCOp (TCOp.endCall i out succ) m =
            ToolCallManager.endToolCall i out succ m from rfl,
          getToolCall_endToolCall_self i out succ m, hbefore] at hafter
      have htc' := Option.some.inj hafter
      subst htc'
      cases succ with
      | true =>
        right; left
        exact ⟨out, rfl, rfl, fun hc => hchange (by simp [hc])⟩
      | false =>
        right; right
        exact ⟨out, rfl, rfl, fun hc => hchange (by simp [hc])⟩
    · rw [show applyTCOp (TCOp.endCall i out succ) m =
            ToolCallManager.endToolCall i out succ m from rfl,
          getToolCall_endToolCall_other i out succ m k hik, hbefore] at hafter
      exact absurd (congrArg ToolCallInfo.status (Option.some.inj hafter)).symm hchange
  | remove i =>
    rw [show applyTCOp (TCOp.remove i) m =
          ToolCallManager.removeToolCall i m from rfl,
        getToolCall_removeToolCall i m k] at hafter
    by_cases hik : i = k
    · rw [if_pos hik] at hafter
      exact absurd hafter (by simp)
    · rw [if_neg hik, hbefore] at hafter
      exact absurd (congrArg ToolCallInfo.status (Option.some.inj hafter)).symm hchange
  | clear =>
    rw [show applyTCOp TCOp.clear m = [] from rfl] at hafter
    exact absurd hafter (by simp [ToolCallManager.getToolCall])

/-- Witness for the amended C4: a second endToolCall on an already completed
entry is characterized by the endToolCall disjunct. -/
theorem toolcall_status_transitions_amended_witness :
    (∃ n a, TCOp.endCall "id1" none false = TCOp.start n "id1" a ∧
      ({ id := "id1", name := "t", args := [], status := ToolCallStatus.failed,
         result := none } : ToolCallInfo).status = ToolCallStatus.running) ∨
    (∃ out, TCOp.endCall "id1" none false = TCOp.endCall "id1" out true ∧
      ({ id := "id1", name := "t", args := [], status := ToolCallStatus.failed,
         result := none } : ToolCallInfo).status = ToolCallStatus.completed ∧
      ({ id := "id1", name := "t", args := [], status := ToolCallStatus.completed,
         result := none } : ToolCallInfo).status ≠ ToolCallStatus.completed) ∨
    (∃ out, TCOp.endCall "id1" none false = TCOp.endCall "id1" out false ∧
      ({ id := "id1", name := "t", args := [], status := ToolCallStatus.failed,
         result := none } : ToolCallInfo).status = ToolCallStatus.failed ∧
      ({ id := "id1", name := "t", args := [], status := ToolCallStatus.completed,
         result := none } : ToolCallInfo).status ≠ ToolCallStatus.failed) :=
  toolcall_status_transitions_amended
    [{ id := "id1", name := "t", args := [], status := ToolCallStatus.completed,
       result := none }]
    (TCOp.endCall "id1" none false) "id1"
    { id := "id1", name := "t", args := [], status := ToolCallStatus.completed,
      result := none }
    { id := "id1", name := "t", args := [], status := ToolCallStatus.failed,
      result := none }
    (by decide) (by decide) (by decide)

/-- Counterexample to C4 as stated: starting a tool call and ending it twice,
first with success and then with failure, drives the entry completed and then
failed, so a terminal status is changed by a subsequent operation. -/
theorem toolcall_terminal_status_overwritten_cex :
    (ToolCallManager.getToolCall
        (applyTCOps [TCOp.start "t" "id1" [], TCOp.endCall "id1" none true] [])
        "id1").map ToolCallInfo.status = some ToolCallStatus.completed ∧
    (ToolCallManager.getToolCall
        (applyTCOps [TCOp.start "t" "id1" [], TCOp.endCall "id1" none true,
          TCOp.endCall "id1" none false] [])
        "id1").map ToolCallInfo.status = some ToolCallStatus.failed := by
  exact ⟨rfl, rfl⟩

section SessionLemmas

theorem headerEvents_no_terminal (sid : String) (task : AITask) :
    (BaseSession.headerEvents sid task).countP defaultCompletionCheck = 0 := by
  unfold BaseSession.headerEvents
  split_ifs <;> rfl

theorem takeUntilTerminal_split (l : List AIEvent)
    (h : l.any defaultCompletionCheck = true) :
    ∃ pre e, BaseSession.takeUntilTerminal l = pre ++ [e] ∧
      defaultCompletionCheck e = true ∧
      pre.countP defaultCompletionCheck = 0 := by
  induction l with
  | nil => simp at h
  | cons a tl ih =>
    by_cases ha : defaultCompletionCheck a = true
    · refine ⟨[], a, ?_, ha, rfl⟩
      simp [BaseSession.takeUntilTerminal, ha]
    · have htl : tl.any defaultCompletionCheck = true := by
        simpa [List.any_cons, ha] using h
      obtain ⟨pre, e, heq, he, hc⟩ := ih htl
      refine ⟨a :: pre, e, ?_, he, ?_⟩
      · simp [BaseSession.takeUntilTerminal, ha, heq]
      · simp [List.countP_cons, ha, hc]

theorem forwardEvents_eq_take (l : List AIEvent) (exc : Option String)
    (h : l.any defaultCompletionCheck = true) :
    BaseSession.forwardEvents l exc = BaseSession.takeUntilTerminal l := by
  induction l with
  | nil => simp at h
  | cons a tl ih =>
    by_cases ha : defaultCompletionCheck a = true
    · cases exc <;> simp [BaseSession.forwardEvents, BaseSession.takeUntilTerminal, ha]
    · have htl : tl.any defaultCompletionCheck = true := by
        simpa [List.any_cons, ha] using h
      cases exc <;>
        simp [BaseSession.forwardEvents, BaseSession.takeUntilTerminal, ha, ih htl]

theorem forwardEvents_no_terminal (l : List AIEvent) (m : String)
    (h : l.any defaultCompletionCheck = false) :
    BaseSession.forwardEvents l (some m) = l ++ [AIEvent.error m] := by
  induction l with
  | nil => rfl
  | cons a tl ih =>
    have hsplit : defaultCompletionCheck a = false ∧
        tl.any defaultCompletionCheck = false := by
      simpa [List.any_cons] using h
    simp [BaseSession.forwardEvents, hsplit.1, ih hsplit.2]

theorem countP_zero_of_any_false (l : List AIEvent)
    (h : l.any defaultCompletionCheck = false) :
    l.countP defaultCompletionCheck = 0 := by
  rw [List.countP_eq_zero]
  intro a ha
  exact (List.any_eq_false.mp h) a ha

end SessionLemmas

/-- Claim C3 (confirmed).  A complete run of BaseSession.run is one where the
engine stream delivered a terminal event (the createEventIterable pull
sequence only finishes after its completion condition fired) or the production
failed; in either case the yielded sequence contains exactly one session_end
or error event, that event is the last one yielded, and when the terminal
event came from the stream everything buffered behind it is dropped: the
output is the header followed by the delivered prefix up to and including the
first terminal event. -/
theorem run_terminal_event_unique_and_last
    (sid : String) (task : AITask) (pushed : List AIEvent) (exc : Option String)
    (evs : List AIEvent)
    (hcomplete : pushed.any defaultCompletionCheck = true ∨ exc.isSome = true)
    (hrun : BaseSession.run false sid task pushed exc = Except.ok evs) :
    evs.countP defaultCompletionCheck = 1 ∧
    (∃ pre e, evs = pre ++ [e] ∧ defaultCompletionCheck e = true) ∧
    (pushed.any defaultCompletionCheck = true →
      evs = BaseSession.headerEvents sid task ++
        BaseSession.takeUntilTerminal pushed) := by
  have hevs : evs = BaseSession.headerEvents sid task ++
      BaseSession.forwardEvents pushed exc := by
    unfold BaseSession.run at hrun
    rw [if_neg (by simp)] at hrun
    exact (Except.ok.inj hrun).symm
  subst hevs
  by_cases hp : pushed.any defaultCompletionCheck = true
  · rw [forwardEvents_eq_take pushed exc hp]
    obtain ⟨pre, e, heq, he, hc0⟩ := takeUntilTerminal_split pushed hp
    refine ⟨?_, ⟨BaseSession.headerEvents sid task ++ pre, e, ?_, he⟩, fun _ => rfl⟩
    · rw [heq, List.countP_append, headerEvents_no_terminal,
        List.countP_append, hc0]
      simp [he]
    · rw [heq, List.append_assoc]
  · have hexc : ∃ m, exc = some m := by
      rcases hcomplete with h | h
      · exact absurd h hp
      · exact Option.isSome_iff_exists.mp h
    obtain ⟨m, rfl⟩ := hexc
    have hpf : pushed.any defaultCompletionCheck = false := by simpa using hp
    rw [forwardEvents_no_terminal pushed m hpf]
    refine ⟨?_, ⟨BaseSession.headerEvents sid task ++ pushed, AIEvent.error m,
      by rw [List.append_assoc], rfl⟩, fun hc => absurd hc hp⟩
    rw [← List.append_assoc, List.countP_append, List.countP_append,
      headerEvents_no_terminal, countP_zero_of_any_false pushed hpf]
    rfl

/-- Sample task used by the session witnesses. -/
def sampleTask : AITask :=
  { id := "t1", kind := AITaskKind.chat,
    input := { prompt := "hi", files := none, extra := none },
    engineId := none }

/-- Sample delivered engine stream with an event buffered behind the terminal
session_end event. -/
def samplePushed : List AIEvent :=
  [AIEvent.assistantMessage "a" false, AIEvent.sessionEnd "s" "completed",
   AIEvent.progress "late" none]

/-- Witness for C3 on a concrete complete run. -/
theorem run_terminal_event_unique_and_last_witness :
    ([AIEvent.sessionStart "s", AIEvent.userMessage "hi" none,
      AIEvent.assistantMessage "a" false,
      AIEvent.sessionEnd "s" "completed"] : List AIEvent).countP
        defaultCompletionCheck = 1 ∧
    (∃ pre e, ([AIEvent.sessionStart "s", AIEvent.userMessage "hi" none,
      AIEvent.assistantMessage "a" false,
      AIEvent.sessionEnd "s" "completed"] : List AIEvent) = pre ++ [e] ∧
      defaultCompletionCheck e = true) ∧
    (samplePushed.any defaultCompletionCheck = true →
      ([AIEvent.sessionStart "s", AIEvent.userMessage "hi" none,
        AIEvent.assistantMessage "a" false,
        AIEvent.sessionEnd "s" "completed"] : List AIEvent) =
        BaseSession.headerEvents "s" sampleTask ++
          BaseSession.takeUntilTerminal samplePushed) :=
  run_terminal_event_unique_and_last "s" sampleTask samplePushed none
    [AIEvent.sessionStart "s", AIEvent.userMessage "hi" none,
     AIEvent.assistantMessage "a" false, AIEvent.sessionEnd "s" "completed"]
    (Or.inl (by decide)) rfl

/-- Claim C1 (code-bug evidence).  Evaluating the IFlowSession.run model at a
non-disposed session whose process spawn fails: the consumer observes an
outcome with no yielded events at all, in particular no session_start and no
user_message, and an exception is thrown; BaseSession.run, by contrast, yields
the header events first (see headerEvents inside BaseSession.run). -/
theorem iflow_run_spawn_failure_yields_no_session_start :
    ∃ o, IFlowSession.runOutcome false (some "ENOENT") = some o ∧
      o.yielded.countP isSessionStartEvent = 0 ∧
      o.yielded.countP isUserMessageEvent = 0 ∧
      o.thrown.isSome = true :=
  ⟨{ yielded := [], thrown := some "ENOENT" }, rfl, rfl, rfl, rfl⟩

/-- Claim C2 (code-bug evidence).  Evaluating the IFlowSession.run model at a
spawn failure: the iterator throws the spawn error to the consumer and yields
no synthesized error event, contrary to the contract that converts uncaught
failures into a single error event. -/
theorem iflow_run_spawn_failure_propagates_exception :
    ∃ o, IFlowSession.runOutcome false (some "spawn failed") = some o ∧
      o.thrown = some "spawn failed" ∧
      o.yielded.countP isErrorEvent = 0 :=
  ⟨{ yielded := [], thrown := some "spawn failed" }, rfl, rfl, rfl⟩

section DisposeLemmas

theorem dispose_isDisposed (s : IFlowSession.State) :
    (IFlowSession.dispose s).isDisposed = true := by
  unfold IFlowSession.dispose
  by_cases h : s.isDisposed = true
  · rw [if_pos h]
    exact h
  · rw [if_neg h]
    dsimp only
    split_ifs <;> rfl

theorem applySessionOp_keeps_disposed (op : SessionOp) (s : IFlowSession.State)
    (h : s.isDisposed = true) : (applySessionOp op s).isDisposed = true := by
  cases op with
  | abort tid =>
    unfold applySessionOp IFlowSession.abort
    dsimp only
    by_cases hc : jsTruthyOptStr tid = true ∧ s.currentTaskId ≠ tid
    · rw [if_pos hc]
      exact h
    · rw [if_neg hc]
      dsimp only
      split_ifs <;> exact h
  | dispose =>
    unfold applySessionOp IFlowSession.dispose
    rw [if_pos h]
    exact h
  | runAttempt t =>
    have hstep : applySessionOp (SessionOp.runAttempt t) s = s := by
      unfold applySessionOp IFlowSession.runStart
      dsimp only
      rw [if_pos h]
    rw [hstep]
    exact h

theorem applySessionOps_keeps_disposed (ops : List SessionOp) :
    ∀ s : IFlowSession.State, s.isDisposed = true →
    (applySessionOps ops s).isDisposed = true := by
  induction ops with
  | nil => intro s h; exact h
  | cons op rest ih =>
    intro s h
    show (applySessionOps rest (applySessionOp op s)).isDisposed = true
    exact ih _ (applySessionOp_keeps_disposed op s h)

end DisposeLemmas

/-- Claim C5 (corrected), amended statement.  Once dispose() has been called,
the session's isDisposed flag remains set after every subsequent sequence of
operations and every subsequent run() invocation throws; further dispose()
calls are no-ops on an already disposed session.  The status field, however,
does not necessarily remain disposed (see the counterexample: abort() after
dispose() resets it to idle). -/
theorem dispose_irreversible_amended (s : IFlowSession.State)
    (ops : List SessionOp) (t : AITask) :
    (applySessionOps ops (IFlowSession.dispose s)).isDisposed = true ∧
    IFlowSession.runStart t (applySessionOps ops (IFlowSession.dispose s)) =
      Except.error "[IFlowSession] Session 已被释放，无法执行任务" := by
  have hd : (applySessionOps ops (IFlowSession.dispose s)).isDisposed = true :=
    applySessionOps_keeps_disposed ops _ (dispose_isDisposed s)
  refine ⟨hd, ?_⟩
  unfold IFlowSession.runStart
  rw [if_pos hd]

/-- Counterexample to C5 as stated: disposing a running session sets status to
disposed, but a subsequent abort() call resets the status to idle, so the
status does not remain disposed after every subsequent operation. -/
theorem dispose_then_abort_resets_status_cex :
    (IFlowSession.dispose
        { status := AISessionStatus.running, isDisposed := false,
          hasProcess := true, killCount := 0, currentTaskId := some "task-1",
          parserToolCalls := [], warnCount := 0 }).status =
      AISessionStatus.disposed ∧
    (IFlowSession.abort none
        (IFlowSession.dispose
          { status := AISessionStatus.running, isDisposed := false,
            hasProcess := true, killCount := 0, currentTaskId := some "task-1",
            parserToolCalls := [], warnCount := 0 })).status =
      AISessionStatus.idle ∧
    AISessionStatus.idle ≠ AISessionStatus.disposed := by
  exact ⟨rfl, rfl, by decide⟩

/-- Claim C6 (corrected), amended statement.  For IFlowSession, abort with a
truthy taskId different from the current task id is a no-op apart from the
logged warning: the process is not killed, the status and every other field
are unchanged. -/
theorem iflow_abort_mismatch_noop (s : IFlowSession.State) (tid : Option String)
    (htruthy : jsTruthyOptStr tid = true) (hmis : s.currentTaskId ≠ tid) :
    IFlowSession.abort tid s = { s with warnCount := s.warnCount + 1 } := by
  unfold IFlowSession.abort
  rw [if_pos ⟨htruthy, hmis⟩]

/-- Witness for the amended C6 on a concrete running session. -/
theorem iflow_abort_mismatch_noop_witness :
    IFlowSession.abort (some "b")
        { status := AISessionStatus.running, isDisposed := false,
          hasProcess := true, killCount := 0, currentTaskId := some "a",
          parserToolCalls := [], warnCount := 0 } =
      { status := AISessionStatus.running, isDisposed := false,
        hasProcess := true, killCount := 0, currentTaskId := some "a",
        parserToolCalls := [], warnCount := 1 } :=
  iflow_abort_mismatch_noop
    { status := AISessionStatus.running, isDisposed := false,
      hasProcess := true, killCount := 0, currentTaskId := some "a",
      parserToolCalls := [], warnCount := 0 }
    (some "b") (by decide) (by decide)

/-- Counterexample to C6 as stated: BaseSession.abort delegates to the
engine-specific abortTask hook and then unconditionally sets the status to
idle, so even with a subclass hook that correctly ignores a mismatched task id
(here the identity on the subclass state, whose current task is a), aborting
with the non-matching id b changes a running session's status to idle. -/
theorem base_abort_mismatch_changes_status_cex :
    BaseSession.abort (fun _ cur => cur) (some "b")
        (AISessionStatus.running, some "a") =
      (AISessionStatus.idle, some "a") ∧
    AISessionStatus.idle ≠ AISessionStatus.running :=
  ⟨rfl, by decide⟩

section TemplateLemmas

theorem collectMissing_mem (vars : List TemplateVariable)
    (ctxVars : List (String × String)) (w : TemplateVariable)
    (hw : w ∈ vars) (hreq : w.required = true)
    (habs : lookupVar ctxVars w.name = none) :
    w.name ∈ collectMissing vars ctxVars := by
  induction vars with
  | nil => exact absurd hw (List.not_mem_nil w)
  | cons v rest ih =>
    rcases List.mem_cons.mp hw with rfl | hmem
    · unfold collectMissing
      rw [if_pos ⟨hreq, by rw [habs]; rfl⟩]
      exact List.mem_cons_self _ _
    · unfold collectMissing
      split_ifs
      · exact List.mem_cons_of_mem _ (ih hmem)
      · exact ih hmem

end TemplateLemmas

/-- Claim C7 (confirmed).  If any required template variable is absent from
the context record, render returns an error before any AITask is built and the
error's missing-variable list names every required variable that is absent
(not just the first); and if the template requires files while the context
files are absent or empty, render likewise returns an error and no AITask is
built. -/
theorem render_missing_required_variables (t : AITaskTemplate)
    (c : TemplateContext) (tid : String) :
    ((∃ v, v ∈ t.vars ∧ v.required = true ∧ lookupVar c.vars v.name = none) →
      ∃ err, TaskTemplate.render t c tid = Except.error err ∧
        ∀ w, w ∈ t.vars → w.required = true → lookupVar c.vars w.name = none →
          w.name ∈ err.missingVariables.getD []) ∧
    (t.requireFiles = true → (c.files = none ∨ c.files = some []) →
      ∃ err, TaskTemplate.render t c tid = Except.error err) := by
  constructor
  · rintro ⟨v, hv, hreq, habs⟩
    have hmem := collectMissing_mem t.vars c.vars v hv hreq habs
    have hie : (collectMissing t.vars c.vars).isEmpty = false := by
      cases hcm : collectMissing t.vars c.vars with
      | nil => rw [hcm] at hmem; exact absurd hmem (List.not_mem_nil _)
      | cons a l => rfl
    have hne : t.vars ≠ [] := List.ne_nil_of_mem hv
    have hvars : t.vars.isEmpty = false := by
      cases h2 : t.vars with
      | nil => exact absurd h2 hne
      | cons a l => rfl
    have hval : validateVariables t c =
        { valid := false, missing := some (collectMissing t.vars c.vars) } := by
      unfold validateVariables
      rw [hvars, hie, if_neg Bool.false_ne_true, if_neg Bool.false_ne_true]
    refine ⟨⟨"Missing required variables: " ++
        String.intercalate ", " (collectMissing t.vars c.vars),
      some (collectMissing t.vars c.vars)⟩, ?_, ?_⟩
    · unfold TaskTemplate.render
      rw [hval]
      rfl
    · intro w hwmem hwreq hwabs
      exact collectMissing_mem t.vars c.vars w hwmem hwreq hwabs
  · intro hrf hfe
    by_cases hval : (validateVariables t c).valid = false
    · refine ⟨⟨"Missing required variables: " ++
          String.intercalate ", " ((validateVariables t c).missing.getD []),
        (validateVariables t c).missing⟩, ?_⟩
      unfold TaskTemplate.render
      rw [if_pos hval]
    · refine ⟨⟨"This template requires at least one file", none⟩, ?_⟩
      unfold TaskTemplate.render
      rw [if_neg hval, if_pos ⟨hrf, by rcases hfe with h | h <;> rw [h] <;> rfl⟩]

/-- Template with one required variable, used by the C7 witness. -/
def chatLikeTemplate : AITaskTemplate :=
  { id := "chat", name := "chat", description := "free chat",
    kind := AITaskKind.chat, promptTemplate := "p",
    vars := [{ name := "prompt", description := "the prompt", dflt := none,
               required := true }],
    requireFiles := false }

/-- Context with no variable values, used by the C7 witness. -/
def emptyContext : TemplateContext :=
  { vars := [], files := none, extra := none }

/-- Witness for C7: rendering the chat-like template with an empty context
fails and the error names the missing required variable prompt. -/
theorem render_missing_required_variables_witness :
    ∃ err, TaskTemplate.render chatLikeTemplate emptyContext "t1" =
        Except.error err ∧
      "prompt" ∈ err.missingVariables.getD [] := by
  obtain ⟨err, herr, hall⟩ :=
    (render_missing_required_variables chatLikeTemplate emptyContext "t1").1
      ⟨{ name := "prompt", description := "the prompt", dflt := none,
         required := true }, by decide, rfl, rfl⟩
  exact ⟨err, herr,
    hall { name := "prompt", description := "the prompt", dflt := none,
           required := true } (by decide) rfl rfl⟩

end ClaudeCodePro
